import Mathlib

/-!
# Orchestra orchestration engine — shallow embedding

A shallow embedding in Lean 4 of the consensus / debate engine of the
Orchestra repository (`packages/core/src/consensus.ts`, `orchestra.ts`,
`registry.ts`, `provider.ts`, `types.ts`), together with theorems settling
the specification claims about it.

Modelling conventions:
* JS numbers appearing as ratios are modelled as `ℚ` (the only boost factor
  `1.2` is applied exactly when the ratio is `1`, so binary-float rounding
  never influences any comparison made by the code).
* `async` / `Promise` code is modelled by explicit `Except` error passing;
  a `Promise.all` fan-out either produces the full list of responses in
  provider-list order or the error of a failing call (the model resolves
  the settlement race of several simultaneous rejections by list order).
* JS reference equality (`Array.prototype.includes`, index sets) is
  modelled by structural equality on the `Response` record; responses with
  equal contents are always placed in the same group (proved below), so
  the two notions agree on every result the engine can produce.
-/

/-- The character class matched by the JS regex `\s` (whitespace), covering
the code points `String.prototype.split(/\s+/)` splits on. -/
def isJsWhitespace (c : Char) : Bool :=
  c == ' ' || c == '\t' || c == '\n' || c == '\r' ||
  c.val == 0x0B || c.val == 0x0C || c.val == 0xA0 || c.val == 0x1680 ||
  (0x2000 ≤ c.val && c.val ≤ 0x200A) ||
  c.val == 0x2028 || c.val == 0x2029 || c.val == 0x202F ||
  c.val == 0x205F || c.val == 0x3000 || c.val == 0xFEFF

/-- Worker for `jsSplitWhitespace`: splits a character list at every maximal
run of whitespace.  `acc` holds the current chunk in reverse; `skipping`
records that the previous character was whitespace, so further whitespace
extends the same separator run instead of opening a new one (`acc` is
always `[]` while `skipping`). -/
def splitWsGo : List Char → List Char → Bool → List (List Char)
  | [], acc, _ => [acc.reverse]
  | c :: cs, acc, skipping =>
    if isJsWhitespace c then
      if skipping then splitWsGo cs [] true
      else acc.reverse :: splitWsGo cs [] true
    else
      splitWsGo cs (c :: acc) false

/-- JS `s.split(/\s+/)`: the chunks between maximal whitespace runs.  As in
JS, a leading (resp. trailing) empty chunk is kept when the string starts
(resp. ends) with whitespace, and the empty string yields `[""]` — the
split is never an empty list. -/
def jsSplitWhitespace (s : String) : List String :=
  (splitWsGo s.data [] false).map String.mk

/-- JS `s.toLowerCase()` (ASCII-faithful; exotic case mappings are outside
the engine's observable behaviour on the spec's scenarios). -/
def jsToLower (s : String) : String :=
  String.mk (s.data.map Char.toLower)

/-- `new Set(s.split(/\s+/))` as a duplicate-free list.  Only membership
and cardinality of the set are ever consumed, so a duplicate-free list
represents it faithfully. -/
def rawTokens (s : String) : List String :=
  (jsSplitWhitespace s).dedup

/-- The token set `new Set(content.toLowerCase().split(/\s+/))` used by
`ConsensusEngine.areSimilar`: the deduplicated whitespace-split of the
lowercased content. -/
def contentTokens (s : String) : List String :=
  rawTokens (jsToLower s)

/-- The common Jaccard computation of `ConsensusEngine.areSimilar` and
`Orchestra.calculateSimilarity`: intersection by filtering the first set
on membership in the second (`[...wordsA].filter(x => wordsB.has(x))`),
union by deduplicating the concatenation (`new Set([...wordsA,
...wordsB])`), ratio `0` guarded on an empty union. -/
def jaccardSim (wordsA wordsB : List String) : ℚ :=
  let intersection := wordsA.filter (fun x => decide (x ∈ wordsB))
  let union := (wordsA ++ wordsB).dedup
  if union.length > 0 then (intersection.length : ℚ) / union.length else 0

/-- `tokens` usage record of a `Response` (types.ts). -/
structure TokenUsage where
  input : ℕ
  output : ℕ
  total : ℕ
deriving DecidableEq, Repr

/-- The `Response` record of types.ts; optional fields become `Option`. -/
structure Response where
  content : String
  provider : String
  model : Option String := none
  tokens : Option TokenUsage := none
  cost : Option ℚ := none
  latency : Option ℚ := none
deriving DecidableEq, Repr

namespace ConsensusEngine

/-- The `similarity` local of `ConsensusEngine.areSimilar`: the Jaccard
ratio of the two lowercased token sets. -/
def similarityOf (a b : Response) : ℚ :=
  jaccardSim (contentTokens a.content) (contentTokens b.content)

/-- `ConsensusEngine.areSimilar`: the Jaccard similarity of the two token
sets compared strictly against the `0.6` threshold (the float literal
`0.6` and the rational `6/10` order every representable ratio
identically, see the header note). -/
def areSimilar (a b : Response) : Bool :=
  decide ((6 : ℚ) / 10 < similarityOf a b)

/-- `ConsensusEngine.groupSimilarResponses`: single-pass greedy clustering.
Each still-ungrouped response (in input order) seeds a group that absorbs
every later still-ungrouped response similar to the seed.  The imperative
`used` index set is realised by recursing on the responses not absorbed by
the current seed. -/
def groupSimilarResponses : List Response → List (List Response)
  | [] => []
  | r :: rest =>
    (r :: rest.filter (fun x => areSimilar r x)) ::
      groupSimilarResponses (rest.filter (fun x => !areSimilar r x))
termination_by rs => rs.length
decreasing_by
  have h := List.length_filter_le (fun x => !areSimilar r x) rest
  simp only [List.length_cons]
  omega

/-- The JS `groups.reduce((max, group) => group.length > max.length ? group
: max)`: keeps the first-encountered group on ties (strict `>`).  JS
`reduce` without an initial value throws on `[]`; the engine only reduces
the group list of a nonempty response list, so the `[]` case is dead. -/
def largestGroupOf : List (List Response) → List Response
  | [] => []
  | g :: gs => gs.foldl (fun mx gr => if gr.length > mx.length then gr else mx) g

/-- The `largestGroup` local of `calculateConsensus`: the reduce applied to
the similarity groups of the response list. -/
def majorityGroup (responses : List Response) : List Response :=
  largestGroupOf (groupSimilarResponses responses)

/-- `ConsensusEngine.synthesizeResponse`: the first response's content
(`group[0].content`; a JS call on an empty group would throw — dead, every
group is seeded nonempty). -/
def synthesizeResponse : List Response → String
  | [] => ""
  | r :: _ => r.content

/-- `Math.round`: round half up. -/
def jsRound (q : ℚ) : ℤ := ⌊q + 1 / 2⌋

/-- `ConsensusEngine.generateReasoning`. -/
def generateReasoning (majority dissenting : List Response) : String :=
  let agreementPercent :=
    jsRound ((majority.length : ℚ) / ((majority.length : ℚ) + dissenting.length) * 100)
  let base := toString agreementPercent ++ "% of models agreed on this response."
  if dissenting.length > 0 then
    base ++ " " ++ toString dissenting.length ++ " model(s) provided alternative perspectives."
  else base

/-- `ConsensusEngine.calculateConfidence`: the agreement ratio, boosted by
`1.2` and capped at `1` exactly when the majority group is unanimous. -/
def calculateConfidence (majorityGroup allResponses : List Response) : ℚ :=
  let agreementRatio : ℚ := (majorityGroup.length : ℚ) / allResponses.length
  let unanimity := majorityGroup.length = allResponses.length
  if unanimity then min 1 (agreementRatio * (12 / 10)) else agreementRatio

/-- The consensus fields computed by `ConsensusEngine.calculateConsensus`
(the `providers` and `metadata` fields are added by `buildConsensus`). -/
structure ConsensusCore where
  result : String
  confidence : ℚ
  agreement : ℚ
  reasoning : String
  dissenting : Option (List Response)
deriving DecidableEq, Repr

/-- `ConsensusEngine.calculateConsensus` (the `mode` argument is read but
never influences the computation in the source). -/
def calculateConsensus (responses : List Response) : ConsensusCore :=
  let groups := groupSimilarResponses responses
  let largestGroup := largestGroupOf groups
  let agreement : ℚ := (largestGroup.length : ℚ) / responses.length
  let confidence := calculateConfidence largestGroup responses
  let dissenting := responses.filter (fun r => !decide (r ∈ largestGroup))
  { result := synthesizeResponse largestGroup
    confidence := confidence
    agreement := agreement
    reasoning := generateReasoning largestGroup dissenting
    dissenting := if dissenting.length > 0 then some dissenting else none }

end ConsensusEngine

/-! ## Specification-side similarity

An independent rendering of the spec's similarity predicate (§4.2 step 4):
token sets are `Finset`s, the ratio is `|A ∩ B| / |A ∪ B|`, `0` when both
sets are empty.  The refinement lemmas below connect it to the list-based
implementation. -/

/-- The tokenized content of a response, as the set the spec speaks of. -/
def tokensFinset (s : String) : Finset String :=
  (contentTokens s).toFinset

/-- Spec §4.2 step 4: Jaccard similarity of two token sets, `0` when both
are empty (equivalently, when the union is). -/
def jaccardSpec (A B : Finset String) : ℚ :=
  if (A ∪ B).card > 0 then ((A ∩ B).card : ℚ) / (A ∪ B).card else 0

instance : Inhabited Response := ⟨{ content := "", provider := "" }⟩

/-! ## The debate coordinator (`Orchestra.debate` and helpers) -/

/-- `DebateRound` record of types.ts. -/
structure DebateRound where
  round : ℕ
  arguments : List Response
  agreement : ℚ
  synthesis : Option String := none
deriving DecidableEq, Repr

/-- `DebateResult` record of types.ts. -/
structure DebateResult where
  decision : String
  rounds : List DebateRound
  agreement : ℚ
  participants : List String
  confidence : ℚ
deriving DecidableEq, Repr

namespace Orchestra

/-- `Orchestra.calculateSimilarity`: Jaccard on raw whitespace token sets
(the caller lowercases the contents before calling it). -/
def calculateSimilarity (a b : String) : ℚ :=
  jaccardSim (rawTokens a) (rawTokens b)

/-- The ordered pairs `(l[i], l[j])` with `i < j`, in the enumeration
order of the double loop of `Orchestra.calculateAgreement`. -/
def allPairs {α : Type} : List α → List (α × α)
  | [] => []
  | x :: xs => (xs.map fun y => (x, y)) ++ allPairs xs

/-- `Orchestra.calculateAgreement`: `1` for at most one response,
otherwise the mean pairwise similarity of the lowercased contents over
every `i < j` pair (the `comparisons > 0` guard is live exactly when the
pair list is nonempty). -/
def calculateAgreement (responses : List Response) : ℚ :=
  if responses.length ≤ 1 then 1
  else
    let contents := responses.map fun r => jsToLower r.content
    let sims := (allPairs contents).map fun p => calculateSimilarity p.1 p.2
    if 0 < sims.length then sims.sum / (sims.length : ℚ) else 0

/-- `Orchestra.buildDebatePrompt`: the augmented prompt fed to the next
round — original question, a 200-character preview of every previous-round
answer, and the reconsideration instruction.  JS reads
`rounds[rounds.length-1]` and would throw on an empty list; every caller
passes a nonempty one, so the `none` branch is dead. -/
def buildDebatePrompt (originalPrompt : String) (rounds : List DebateRound) : String :=
  match rounds.getLast? with
  | none => ""
  | some lastRound =>
    let perspectives := String.intercalate ("\n")
      (lastRound.arguments.map fun arg =>
        arg.provider ++ ": " ++ String.mk (arg.content.data.take 200) ++ "...")
    "\nOriginal question: " ++ originalPrompt ++
      "\n\nPrevious perspectives:\n" ++ perspectives ++
      "\n\nPlease reconsider your response taking into account these other viewpoints.\n" ++
      "Aim for consensus while maintaining your analytical rigor."

/-- `Orchestra.synthesizeDecision`: content of the first response of the
final round (`lastRound.arguments[0]`; both out-of-range reads would throw
in JS and are dead on the engine's call sites). -/
def synthesizeDecision (rounds : List DebateRound) : String :=
  match rounds.getLast? with
  | none => ""
  | some lastRound =>
    match lastRound.arguments with
    | [] => ""
    | r :: _ => r.content

/-- The round record pushed by the debate loop:
`rounds.push({round, arguments: responses, agreement})`. -/
def mkDebateRound (round : ℕ) (responses : List Response) (agreement : ℚ) : DebateRound :=
  { round := round, arguments := responses, agreement := agreement }

/-- The `while (agreement < threshold && round < maxRounds)` loop of
`Orchestra.debate`.  `env round prompt` stands for the per-round parallel
fan-out `Promise.all(providers.map(p => this.query(prompt, {provider:
p})))`: `.ok` is the settled list of responses in provider order, `.error`
a rejection, which aborts the whole call (`Promise.all` join).  The prompt
is augmented for the next round exactly when the loop will continue. -/
def debateLoop {γ : Type} (env : ℕ → String → Except γ (List Response))
    (threshold : ℚ) (maxRounds : ℕ) (round : ℕ) (prompt : String)
    (rounds : List DebateRound) (agreement : ℚ) :
    Except γ (List DebateRound × ℚ) :=
  if _h : agreement < threshold ∧ round < maxRounds then
    match env (round + 1) prompt with
    | .error e => .error e
    | .ok responses =>
      let newAgreement := calculateAgreement responses
      let newRounds := rounds ++ [mkDebateRound (round + 1) responses newAgreement]
      let newPrompt :=
        if newAgreement < threshold ∧ round + 1 < maxRounds
          then buildDebatePrompt prompt newRounds else prompt
      debateLoop env threshold maxRounds (round + 1) newPrompt newRounds newAgreement
  else .ok (rounds, agreement)
termination_by maxRounds - round
decreasing_by
  omega

/-- `Orchestra.debate` with the provider set, threshold and round budget
already resolved: run the loop from `round = 0, agreement = 0`, then
assemble the `DebateResult` (decision from the final round, confidence
equal to the final agreement). -/
def debateRun {γ : Type} (env : ℕ → String → Except γ (List Response))
    (providers : List String) (threshold : ℚ) (maxRounds : ℕ) (prompt : String) :
    Except γ DebateResult :=
  match debateLoop env threshold maxRounds 0 prompt [] 0 with
  | .error e => .error e
  | .ok (rounds, agreement) =>
    .ok { decision := synthesizeDecision rounds
          rounds := rounds
          agreement := agreement
          participants := providers
          confidence := agreement }

end Orchestra

/-! ## Providers, registry, and the fallible engine methods -/

/-- `ProviderConfig` record of types.ts. -/
structure ProviderConfig where
  apiKey : String
  endpoint : Option String := none
  model : Option String := none
  maxTokens : Option ℕ := none
  temperature : Option ℚ := none
deriving DecidableEq, Repr

/-- The `IProvider` capability contract of provider.ts, over an abstract
provider-error type `ε`.  `complete` may reject (`.error e`); the optional
health probe either resolves a `Bool` or rejects.  The optional `stream`
capability is consumed by no code under test and is omitted. -/
structure Provider (ε : Type) where
  name : String
  complete : String → Except ε Response
  healthCheck : Option (Except ε Bool) := none

/-- The `ProviderRegistry`'s `Map<string, IProvider>`: an insertion-ordered
association list (JS `Map` keeps unique keys; `register` overwrites in
place). -/
abbrev Registry (ε : Type) := List (String × Provider ε)

namespace ProviderRegistry

/-- `Map.prototype.get`, looking up the entry with the given key. -/
def get {ε : Type} (reg : Registry ε) (name : String) : Option (Provider ε) :=
  (reg.find? fun e => e.1 == name).map fun e => e.2

/-- `Map.prototype.set`: overwrite in place when the key is present,
append otherwise (insertion order preserved). -/
def mapSet {ε : Type} (reg : Registry ε) (name : String) (p : Provider ε) : Registry ε :=
  if reg.any fun e => e.1 == name then
    reg.map fun e => if e.1 == name then (name, p) else e
  else reg ++ [(name, p)]

/-- `ProviderRegistry.remove` (`Map.prototype.delete`). -/
def remove {ε : Type} (reg : Registry ε) (name : String) : Registry ε :=
  reg.filter fun e => !(e.1 == name)

/-- `ProviderRegistry.list` (`Array.from(map.keys())`, insertion order). -/
def list {ε : Type} (reg : Registry ε) : List String :=
  reg.map fun e => e.1

/-- `ProviderRegistry.createProvider`: the mock provider constructed for
every registration (the 100 ms simulated delay is unobservable in the
model; the mock's `complete` never rejects and its probe reports true). -/
def createProvider (ε : Type) (name : String) (config : ProviderConfig) : Provider ε :=
  { name := name
    complete := fun prompt => .ok
      { content := "Response from " ++ name ++
          ": This is a simulated response to \"" ++ prompt ++ "\""
        provider := name
        tokens := some { input := prompt.length, output := 50, total := prompt.length + 50 }
        cost := some (1 / 1000) }
    healthCheck := some (.ok true) }

/-- `ProviderRegistry.register`: construct and store the provider for the
name (last write wins). -/
def register {ε : Type} (reg : Registry ε) (name : String) (config : ProviderConfig) :
    Registry ε :=
  mapSet reg name (createProvider ε name config)

end ProviderRegistry

/-- The error channel of the engine's async methods: the two `Error`s
thrown by the engine itself (`'No providers available for consensus'`,
`'Provider <name> not found'`) and the propagated rejection of a
provider's `complete` call, tagged in the model with the provider whose
call settled the `Promise.all` join. -/
inductive OrchestraError (ε : Type) where
  | noProviders
  | providerNotFound (name : String)
  | providerCall (name : String) (cause : ε)
deriving DecidableEq, Repr

namespace ConsensusEngine

/-- The provider resolution of `buildConsensus`:
`options?.providers || this.registry.list()` (a present array, even empty,
is truthy in JS). -/
def resolveProviders {ε : Type} (reg : Registry ε) (optProviders : Option (List String)) :
    List String :=
  match optProviders with
  | some l => l
  | none => ProviderRegistry.list reg

/-- `ConsensusEngine.getResponses`: the parallel fan-out
`Promise.all(providerNames.map(async name => ...))`.  `.ok` carries the
responses in provider-name order (`Promise.all` preserves input order);
any lookup failure or `complete` rejection rejects the whole join and no
partial result is returned.  The model settles a multi-failure race by
list order; the claims only constrain runs with a unique failure. -/
def getResponses {ε : Type} (reg : Registry ε) (prompt : String) :
    List String → Except (OrchestraError ε) (List Response)
  | [] => .ok []
  | name :: rest =>
    match ProviderRegistry.get reg name with
    | none => .error (.providerNotFound name)
    | some provider =>
      match provider.complete prompt with
      | .error e => .error (.providerCall name e)
      | .ok r =>
        match getResponses reg prompt rest with
        | .error err => .error err
        | .ok rs => .ok (r :: rs)

/-- The `metadata` record of a `ConsensusResult` (types.ts). -/
structure ConsensusMetadata where
  rounds : ℕ
  totalTime : ℚ
  totalCost : ℚ
deriving DecidableEq, Repr

/-- The full `ConsensusResult` record of types.ts (`debate` is never set
by `buildConsensus`). -/
structure ConsensusResult where
  result : String
  confidence : ℚ
  agreement : ℚ
  reasoning : String
  dissenting : Option (List Response)
  providers : List String
  metadata : ConsensusMetadata
deriving DecidableEq, Repr

/-- `ConsensusEngine.buildConsensus`: resolve the provider set, throw on
an empty one, fan out, aggregate.  The `mode` option is read but never
influences `calculateConsensus` in the source; `totalTime` is a wall-clock
measurement and is recorded as 0 in the model, which has no clock. -/
def buildConsensus {ε : Type} (reg : Registry ε) (prompt : String)
    (optProviders : Option (List String)) :
    Except (OrchestraError ε) ConsensusResult :=
  let providerNames := resolveProviders reg optProviders
  if providerNames.length = 0 then .error .noProviders
  else
    match getResponses reg prompt providerNames with
    | .error e => .error e
    | .ok responses =>
      let core := calculateConsensus responses
      .ok { result := core.result
            confidence := core.confidence
            agreement := core.agreement
            reasoning := core.reasoning
            dissenting := core.dissenting
            providers := providerNames
            metadata :=
              { rounds := 1
                totalTime := 0
                totalCost := responses.foldl (fun sum r => sum + r.cost.getD 0) 0 } }

end ConsensusEngine

/-- `OrchestraConfig` of types.ts; the `providers` record is
insertion-ordered. -/
structure OrchestraConfig where
  providers : List (String × ProviderConfig)
  defaultProvider : Option String := none
  consensusThreshold : Option ℚ := none
  maxDebateRounds : Option ℕ := none
  timeout : Option ℚ := none
  cache : Option Bool := none
deriving DecidableEq, Repr

/-- The state of an `Orchestra` instance: the construction-time config
snapshot (read-only thereafter) and the live registry. -/
structure OrchestraState (ε : Type) where
  config : OrchestraConfig
  registry : Registry ε

namespace Orchestra

/-- JS `a || b` where `a` is an optional number (`0` is falsy). -/
def jsOrNat (a : Option ℕ) (b : ℕ) : ℕ :=
  match a with
  | some x => if x = 0 then b else x
  | none => b

/-- JS `a || b` where `a` is an optional number (`0` is falsy). -/
def jsOrQ (a : Option ℚ) (b : ℚ) : ℚ :=
  match a with
  | some x => if x = 0 then b else x
  | none => b

/-- JS `a || b` where `a` is an optional string (`''` is falsy). -/
def jsOrStr (a : Option String) (b : String) : String :=
  match a with
  | some x => if x = "" then b else x
  | none => b

/-- `new Orchestra(config)` plus `initialize()`: register every configured
provider, in the record's insertion order, into a fresh registry. -/
def init (ε : Type) (config : OrchestraConfig) : OrchestraState ε :=
  { config := config
    registry := config.providers.foldl
      (fun reg e => ProviderRegistry.register reg e.1 e.2) [] }

/-- `Orchestra.addProvider`: registers into the live registry only; the
config snapshot is untouched. -/
def addProvider {ε : Type} (st : OrchestraState ε) (name : String)
    (config : ProviderConfig) : OrchestraState ε :=
  { st with registry := ProviderRegistry.register st.registry name config }

/-- `Orchestra.removeProvider`: removes from the live registry only. -/
def removeProvider {ε : Type} (st : OrchestraState ε) (name : String) : OrchestraState ε :=
  { st with registry := ProviderRegistry.remove st.registry name }

/-- `Orchestra.getProviders`. -/
def getProviders {ε : Type} (st : OrchestraState ε) : List String :=
  ProviderRegistry.list st.registry

/-- `Orchestra.query`: resolve one provider name
(`options?.provider || this.config.defaultProvider || 'openai'`), look it
up in the live registry (throwing `Provider <name> not found` on a miss),
and return its response with the `provider` field overwritten and the
measured latency attached (0 in the clockless model). -/
def query {ε : Type} (st : OrchestraState ε) (prompt : String)
    (optProvider : Option String) : Except (OrchestraError ε) Response :=
  let providerName := jsOrStr optProvider (jsOrStr st.config.defaultProvider ("openai"))
  match ProviderRegistry.get st.registry providerName with
  | none => .error (.providerNotFound providerName)
  | some provider =>
    match provider.complete prompt with
    | .error e => .error (.providerCall providerName e)
    | .ok r => .ok { r with provider := providerName, latency := some 0 }

/-- `Orchestra.consensus`: thin delegation to the consensus engine over
the live registry (the bracketing event emission does not influence the
result and is not modelled). -/
def consensus {ε : Type} (st : OrchestraState ε) (prompt : String)
    (optProviders : Option (List String)) :
    Except (OrchestraError ε) ConsensusEngine.ConsensusResult :=
  ConsensusEngine.buildConsensus st.registry prompt optProviders

/-- The participant set `debate` resolves when `options.providers` is
absent: `Object.keys(this.config.providers)` — the construction-time
config snapshot, not the live registry. -/
def debateProviders {ε : Type} (st : OrchestraState ε)
    (optProviders : Option (List String)) : List String :=
  match optProviders with
  | some l => l
  | none => st.config.providers.map fun e => e.1

/-- One debate-round fan-out:
`Promise.all(providers.map(p => this.query(prompt, {provider: p})))`. -/
def queryFanout {ε : Type} (st : OrchestraState ε) :
    List String → String → Except (OrchestraError ε) (List Response)
  | [], _ => .ok []
  | p :: ps, prompt =>
    match query st prompt (some p) with
    | .error e => .error e
    | .ok r =>
      match queryFanout st ps prompt with
      | .error e => .error e
      | .ok rs => .ok (r :: rs)

/-- `Orchestra.debate` over an instance state: resolve the budget
(`options.maxRounds || config.maxDebateRounds || 3`), the threshold
(`options.threshold || config.consensusThreshold || 0.7`) and the
participants, then run the round loop with the per-round fan-out. -/
def debate {ε : Type} (st : OrchestraState ε) (prompt : String)
    (optProviders : Option (List String)) (optMaxRounds : Option ℕ)
    (optThreshold : Option ℚ) : Except (OrchestraError ε) DebateResult :=
  let maxRounds := jsOrNat optMaxRounds (jsOrNat st.config.maxDebateRounds 3)
  let threshold := jsOrQ optThreshold (jsOrQ st.config.consensusThreshold (7 / 10))
  let providers := debateProviders st optProviders
  debateRun (fun _ p => queryFanout st providers p) providers threshold maxRounds prompt

/-- The boolean `healthCheck` records for one provider entry: the probe's
result, `true` when the provider exposes none, `false` when the probe
rejects. -/
def probeResult {ε : Type} (p : Provider ε) : Bool :=
  match p.healthCheck with
  | some (.ok b) => b
  | some (.error _) => false
  | none => true

/-- `Orchestra.healthCheck`: one entry per registered provider; the
`try/catch` wraps each probe individually, so a rejection yields `false`
for that provider only and the call never fails wholesale (the `p`
undefined branch yields `true` through the `else`, and is dead — every
listed name is present). -/
def healthCheck {ε : Type} (st : OrchestraState ε) : List (String × Bool) :=
  (ProviderRegistry.list st.registry).map fun name =>
    (name,
      match ProviderRegistry.get st.registry name with
      | some p =>
        match p.healthCheck with
        | some (.ok b) => b
        | some (.error _) => false
        | none => true
      | none => true)

end Orchestra

/-- A mock provider whose probe resolves `true` (health-check scenario). -/
def probeOkProvider : Provider Unit :=
  { name := "a"
    complete := fun _ => .ok { content := "x", provider := "a" }
    healthCheck := some (.ok true) }

/-- A mock provider exposing no probe. -/
def probeLessProvider : Provider Unit :=
  { name := "b"
    complete := fun _ => .ok { content := "x", provider := "b" }
    healthCheck := none }

/-- A mock provider whose probe rejects. -/
def probeThrowProvider : Provider Unit :=
  { name := "c"
    complete := fun _ => .ok { content := "x", provider := "c" }
    healthCheck := some (.error ()) }

/-- A state holding the three probe-scenario providers. -/
def healthDemoState : OrchestraState Unit :=
  { config := { providers := [] }
    registry := [("a", probeOkProvider), ("b", probeLessProvider), ("c", probeThrowProvider)] }

/-- A provider whose `complete` resolves (fan-out failure scenario). -/
def goodProvider : Provider String :=
  { name := "g"
    complete := fun _ => .ok { content := "fine", provider := "g" }
    healthCheck := none }

/-- A provider whose `complete` rejects (fan-out failure scenario). -/
def failingProvider : Provider String :=
  { name := "b"
    complete := fun _ => .error ("boom")
    healthCheck := none }

/-- A registry holding one resolving and one rejecting provider. -/
def fanoutDemoRegistry : Registry String :=
  [("g", goodProvider), ("b", failingProvider)]

/-- A one-provider config for the registry-dynamics scenario. -/
def cfg10w : OrchestraConfig :=
  { providers := [("p1", { apiKey := "k1" })] }

/-- The name of the provider added after construction in that scenario. -/
def n10w : String := "extra"

/-- The three responses of the spec's concrete scenario 1. -/
def respPostgresA : Response := { content := "Use Postgres", provider := "a" }

def respPostgresB : Response := { content := "Use Postgres", provider := "b" }

def respMongoC : Response := { content := "Use MongoDB", provider := "c" }

lemma splitWsGo_ne_nil (cs : List Char) :
    ∀ acc skipping, splitWsGo cs acc skipping ≠ [] := by
  induction cs with
  | nil => intro acc skipping; simp [splitWsGo]
  | cons c cs ih =>
    intro acc skipping
    rw [splitWsGo]
    by_cases h : isJsWhitespace c
    · rw [if_pos h]
      by_cases hs : skipping
      · rw [if_pos hs]; exact ih [] true
      · rw [if_neg hs]; simp
    · rw [if_neg h]; exact ih (c :: acc) false

lemma jsSplitWhitespace_ne_nil (s : String) : jsSplitWhitespace s ≠ [] := by
  unfold jsSplitWhitespace
  intro h
  exact splitWsGo_ne_nil s.data [] false (List.map_eq_nil_iff.mp h)

lemma rawTokens_ne_nil (s : String) : rawTokens s ≠ [] := by
  unfold rawTokens
  intro h
  exact jsSplitWhitespace_ne_nil s ((List.dedup_eq_nil _).mp h)

lemma contentTokens_ne_nil (s : String) : contentTokens s ≠ [] :=
  rawTokens_ne_nil (jsToLower s)

lemma rawTokens_nodup (s : String) : (rawTokens s).Nodup :=
  List.nodup_dedup _

lemma contentTokens_nodup (s : String) : (contentTokens s).Nodup :=
  rawTokens_nodup (jsToLower s)

lemma tokensFinset_nonempty (s : String) : (tokensFinset s).Nonempty := by
  rcases h : contentTokens s with _ | ⟨t, ts⟩
  · exact absurd h (contentTokens_ne_nil s)
  · exact ⟨t, by simp [tokensFinset, h]⟩

/-- Refinement: the list-based Jaccard computation of the code equals the
set-based Jaccard ratio of the spec, on duplicate-free token lists. -/
lemma jaccardSim_eq_spec (A B : List String) (hA : A.Nodup) :
    jaccardSim A B = jaccardSpec A.toFinset B.toFinset := by
  have hinter : (A.filter (fun x => decide (x ∈ B))).toFinset = A.toFinset ∩ B.toFinset := by
    ext x
    simp [List.mem_filter]
  have hunion : ((A ++ B).dedup).toFinset = A.toFinset ∪ B.toFinset := by
    ext x
    simp [List.mem_dedup]
  have hinterlen : (A.filter (fun x => decide (x ∈ B))).length
      = (A.toFinset ∩ B.toFinset).card := by
    rw [← hinter, List.toFinset_card_of_nodup (hA.filter _)]
  have hunionlen : ((A ++ B).dedup).length = (A.toFinset ∪ B.toFinset).card := by
    rw [← hunion, List.toFinset_card_of_nodup (List.nodup_dedup _)]
  unfold jaccardSim jaccardSpec
  simp only [hinterlen, hunionlen]

lemma similarityOf_eq_spec (a b : Response) :
    ConsensusEngine.similarityOf a b
      = jaccardSpec (tokensFinset a.content) (tokensFinset b.content) :=
  jaccardSim_eq_spec _ _ (contentTokens_nodup _)

lemma areSimilar_iff_spec (a b : Response) :
    ConsensusEngine.areSimilar a b = true
      ↔ (6 : ℚ) / 10 < jaccardSpec (tokensFinset a.content) (tokensFinset b.content) := by
  unfold ConsensusEngine.areSimilar
  rw [similarityOf_eq_spec]
  exact decide_eq_true_iff

lemma jaccardSpec_self (A : Finset String) (h : A.Nonempty) : jaccardSpec A A = 1 := by
  unfold jaccardSpec
  have hc : 0 < A.card := Finset.card_pos.mpr h
  simp only [Finset.union_self, Finset.inter_self]
  rw [if_pos hc, div_self]
  exact_mod_cast hc.ne'

/-- Two responses with the same token set have similarity exactly `1`. -/
lemma similarityOf_of_tokens_eq (a b : Response)
    (h : tokensFinset a.content = tokensFinset b.content) :
    ConsensusEngine.similarityOf a b = 1 := by
  rw [similarityOf_eq_spec, h]
  exact jaccardSpec_self _ (tokensFinset_nonempty _)

lemma areSimilar_of_tokens_eq (a b : Response)
    (h : tokensFinset a.content = tokensFinset b.content) :
    ConsensusEngine.areSimilar a b = true := by
  rw [areSimilar_iff_spec, h, jaccardSpec_self _ (tokensFinset_nonempty _)]
  norm_num

/-- `areSimilar` looks only at the token sets of its arguments. -/
lemma areSimilar_congr_right (r a b : Response)
    (h : tokensFinset a.content = tokensFinset b.content) :
    ConsensusEngine.areSimilar r a = ConsensusEngine.areSimilar r b := by
  unfold ConsensusEngine.areSimilar
  rw [similarityOf_eq_spec, similarityOf_eq_spec, h]

/-! ## Properties of the greedy grouping pass -/

namespace ConsensusEngine

lemma groupSimilarResponses_nil : groupSimilarResponses [] = [] := by
  rw [groupSimilarResponses]

lemma groupSimilarResponses_cons (r : Response) (rest : List Response) :
    groupSimilarResponses (r :: rest) =
      (r :: rest.filter (fun x => areSimilar r x)) ::
        groupSimilarResponses (rest.filter (fun x => !areSimilar r x)) := by
  rw [groupSimilarResponses]

/-- The concatenation of the groups is a permutation of the input: every
response lands in the groups with its original multiplicity. -/
lemma groupSimilar_flatten_perm (rs : List Response) :
    (groupSimilarResponses rs).flatten.Perm rs := by
  induction rs using groupSimilarResponses.induct with
  | case1 => simp [groupSimilarResponses_nil]
  | case2 r rest ih =>
    rw [groupSimilarResponses_cons]
    simp only [List.flatten_cons, List.cons_append]
    refine List.Perm.cons r ?_
    exact List.Perm.trans (List.Perm.append_left _ ih) (List.filter_append_perm _ rest)

lemma ne_nil_of_mem_groupSimilar {rs : List Response} {g : List Response}
    (h : g ∈ groupSimilarResponses rs) : g ≠ [] := by
  induction rs using groupSimilarResponses.induct with
  | case1 => rw [groupSimilarResponses_nil] at h; cases h
  | case2 r rest ih =>
    rw [groupSimilarResponses_cons] at h
    rcases List.mem_cons.mp h with rfl | h'
    · simp
    · exact ih h'

lemma mem_of_mem_groupSimilar {rs g : List Response} {a : Response}
    (hg : g ∈ groupSimilarResponses rs) (ha : a ∈ g) : a ∈ rs :=
  (groupSimilar_flatten_perm rs).mem_iff.mp (List.mem_flatten.mpr ⟨g, hg, ha⟩)

/-- Distinct groups are disjoint: no response is a member of two groups. -/
lemma groupSimilar_pairwise_disjoint (rs : List Response) :
    (groupSimilarResponses rs).Pairwise (fun g₁ g₂ => ∀ a ∈ g₁, a ∉ g₂) := by
  induction rs using groupSimilarResponses.induct with
  | case1 => rw [groupSimilarResponses_nil]; exact List.Pairwise.nil
  | case2 r rest ih =>
    rw [groupSimilarResponses_cons]
    refine List.Pairwise.cons ?_ ih
    intro g' hg' a ha hag'
    have haN : a ∈ rest.filter (fun x => !areSimilar r x) :=
      mem_of_mem_groupSimilar hg' hag'
    have hnot : areSimilar r a = false := by
      simpa using (List.mem_filter.mp haN).2
    rcases List.mem_cons.mp ha with heq | haS
    · rw [heq, areSimilar_of_tokens_eq r r rfl] at hnot
      cases hnot
    · rw [(List.mem_filter.mp haS).2] at hnot
      cases hnot

/-- Responses with the same token set always land in the same group: the
seed of the pass compares equally against both, at every step. -/
lemma groupSimilar_colocates (rs : List Response) :
    ∀ a b : Response, a ∈ rs → b ∈ rs →
      tokensFinset a.content = tokensFinset b.content →
      ∃ g, g ∈ groupSimilarResponses rs ∧ a ∈ g ∧ b ∈ g := by
  induction rs using groupSimilarResponses.induct with
  | case1 => intro a b ha _ _; cases ha
  | case2 r rest ih =>
    intro a b ha hb htok
    rw [groupSimilarResponses_cons]
    by_cases hsa : areSimilar r a = true
    · have hsb : areSimilar r b = true := by
        rw [← areSimilar_congr_right r a b htok]; exact hsa
      refine ⟨r :: rest.filter (fun x => areSimilar r x), List.mem_cons_self _ _, ?_, ?_⟩
      · rcases List.mem_cons.mp ha with rfl | ha'
        · exact List.mem_cons_self _ _
        · exact List.mem_cons_of_mem _ (List.mem_filter.mpr ⟨ha', hsa⟩)
      · rcases List.mem_cons.mp hb with rfl | hb'
        · exact List.mem_cons_self _ _
        · exact List.mem_cons_of_mem _ (List.mem_filter.mpr ⟨hb', hsb⟩)
    · have hsb : ¬areSimilar r b = true := by
        rw [← areSimilar_congr_right r a b htok]; exact hsa
      have ha' : a ∈ rest := by
        rcases List.mem_cons.mp ha with heq | h
        · exact absurd (by rw [heq]; exact areSimilar_of_tokens_eq r r rfl) hsa
        · exact h
      have hb' : b ∈ rest := by
        rcases List.mem_cons.mp hb with heq | h
        · exact absurd (by rw [heq]; exact areSimilar_of_tokens_eq r r rfl) hsb
        · exact h
      obtain ⟨g, hgmem, hag, hbg⟩ := ih a b
        (List.mem_filter.mpr ⟨ha', by simpa using hsa⟩)
        (List.mem_filter.mpr ⟨hb', by simpa using hsb⟩) htok
      exact ⟨g, List.mem_cons_of_mem _ hgmem, hag, hbg⟩

/-! ## Properties of the majority-group reduce -/

lemma largestGroupOf_cons (g : List Response) (gs : List (List Response)) :
    largestGroupOf (g :: gs)
      = gs.foldl (fun mx gr => if gr.length > mx.length then gr else mx) g := rfl

/-- The JS reduce keeps the first group attaining the maximal length:
everything strictly before the result is strictly shorter, everything
after it is no longer. -/
lemma foldl_longest_decomp (gs : List (List Response)) :
    ∀ a : List Response,
      ∃ l₁ l₂, a :: gs
          = l₁ ++ (gs.foldl (fun mx gr => if gr.length > mx.length then gr else mx) a) :: l₂ ∧
        (∀ x ∈ l₁,
          x.length < (gs.foldl (fun mx gr => if gr.length > mx.length then gr else mx) a).length) ∧
        (∀ x ∈ l₂,
          x.length ≤ (gs.foldl (fun mx gr => if gr.length > mx.length then gr else mx) a).length) := by
  induction gs with
  | nil => exact fun a => ⟨[], [], rfl, by simp, by simp⟩
  | cons g' gs ih =>
    intro a
    rw [List.foldl_cons]
    by_cases h : g'.length > a.length
    · rw [if_pos h]
      obtain ⟨l₁, l₂, heq, hlt, hle⟩ := ih g'
      refine ⟨a :: l₁, l₂, by rw [List.cons_append, ← heq], ?_, hle⟩
      intro x hx
      rcases List.mem_cons.mp hx with hxa | hx'
      · have hg'M : g'.length
            ≤ (gs.foldl (fun mx gr => if gr.length > mx.length then gr else mx) g').length := by
          rcases l₁ with _ | ⟨y, l₁'⟩
          · injection heq with h1 _
            exact le_of_eq (congrArg List.length h1)
          · injection heq with h1 _
            exact le_of_lt (h1 ▸ hlt y (List.mem_cons_self _ _))
        rw [hxa]
        omega
      · exact hlt x hx'
    · rw [if_neg h]
      obtain ⟨l₁, l₂, heq, hlt, hle⟩ := ih a
      rcases l₁ with _ | ⟨y, l₁'⟩
      · rw [List.nil_append] at heq
        injection heq with h1 h2
        refine ⟨[], g' :: gs, by rw [List.nil_append, ← h1], by simp, ?_⟩
        intro x hx
        rcases List.mem_cons.mp hx with h3 | hx'
        · rw [h3, ← h1]
          omega
        · rw [h2] at hx'
          exact hle x hx'
      · rw [List.cons_append] at heq
        injection heq with h1 h2
        refine ⟨a :: g' :: l₁', l₂, by rw [List.cons_append, List.cons_append, ← h2], ?_, hle⟩
        intro x hx
        have haM : a.length
            < (gs.foldl (fun mx gr => if gr.length > mx.length then gr else mx) a).length := by
          have h5 : a.length = y.length := congrArg List.length h1
          have h6 := hlt y (List.mem_cons_self _ _)
          omega
        rcases List.mem_cons.mp hx with h3 | hx'
        · rw [h3]; exact haM
        · rcases List.mem_cons.mp hx' with h4 | hx''
          · rw [h4]; omega
          · exact hlt x (List.mem_cons_of_mem _ hx'')

/-- `foldl_longest_decomp`, phrased for `largestGroupOf`. -/
lemma largestGroupOf_decomp (g : List Response) (gs : List (List Response)) :
    ∃ l₁ l₂, g :: gs = l₁ ++ largestGroupOf (g :: gs) :: l₂ ∧
      (∀ x ∈ l₁, x.length < (largestGroupOf (g :: gs)).length) ∧
      (∀ x ∈ l₂, x.length ≤ (largestGroupOf (g :: gs)).length) := by
  rw [largestGroupOf_cons]
  exact foldl_longest_decomp gs g

lemma largestGroupOf_mem {gs : List (List Response)} (h : gs ≠ []) :
    largestGroupOf gs ∈ gs := by
  rcases gs with _ | ⟨g, gs⟩
  · exact absurd rfl h
  · obtain ⟨l₁, l₂, heq, -, -⟩ := largestGroupOf_decomp g gs
    have hmem : largestGroupOf (g :: gs) ∈ l₁ ++ largestGroupOf (g :: gs) :: l₂ :=
      List.mem_append_right _ (List.mem_cons_self _ _)
    rw [← heq] at hmem
    exact hmem

lemma length_le_largestGroupOf {gs : List (List Response)} (h : gs ≠ []) :
    ∀ x ∈ gs, x.length ≤ (largestGroupOf gs).length := by
  rcases gs with _ | ⟨g, gs⟩
  · exact absurd rfl h
  · obtain ⟨l₁, l₂, heq, hlt, hle⟩ := largestGroupOf_decomp g gs
    intro x hx
    rw [heq] at hx
    rcases List.mem_append.mp hx with hx' | hx'
    · exact le_of_lt (hlt x hx')
    · rcases List.mem_cons.mp hx' with heq' | hx''
      · exact le_of_eq (congrArg List.length heq')
      · exact hle x hx''

lemma groupSimilarResponses_ne_nil {rs : List Response} (h : rs ≠ []) :
    groupSimilarResponses rs ≠ [] := by
  rcases rs with _ | ⟨r, rest⟩
  · exact absurd rfl h
  · rw [groupSimilarResponses_cons]
    simp

lemma majorityGroup_mem {rs : List Response} (h : rs ≠ []) :
    majorityGroup rs ∈ groupSimilarResponses rs :=
  largestGroupOf_mem (groupSimilarResponses_ne_nil h)

lemma majorityGroup_ne_nil {rs : List Response} (h : rs ≠ []) :
    majorityGroup rs ≠ [] :=
  ne_nil_of_mem_groupSimilar (majorityGroup_mem h)

lemma length_le_of_mem_groupSimilar {rs g : List Response}
    (hg : g ∈ groupSimilarResponses rs) : g.length ≤ rs.length := by
  have h1 : g.length ≤ ((groupSimilarResponses rs).map List.length).sum :=
    List.single_le_sum (fun x _ => Nat.zero_le x) _ (List.mem_map_of_mem _ hg)
  have h2 : ((groupSimilarResponses rs).map List.length).sum
      = (groupSimilarResponses rs).flatten.length := (List.length_flatten _).symm
  have h3 : (groupSimilarResponses rs).flatten.length = rs.length :=
    (groupSimilar_flatten_perm rs).length_eq
  omega

lemma majorityGroup_length_le (rs : List Response) :
    (majorityGroup rs).length ≤ rs.length := by
  rcases h : rs with _ | ⟨r, rest⟩
  · simp [majorityGroup, groupSimilarResponses_nil, largestGroupOf]
  · rw [← h]
    exact length_le_of_mem_groupSimilar (majorityGroup_mem (by rw [h]; simp))

lemma majorityGroup_length_pos {rs : List Response} (h : rs ≠ []) :
    0 < (majorityGroup rs).length :=
  List.length_pos.mpr (majorityGroup_ne_nil h)

lemma calculateConsensus_agreement (rs : List Response) :
    (calculateConsensus rs).agreement = ((majorityGroup rs).length : ℚ) / rs.length := rfl

lemma calculateConsensus_confidence (rs : List Response) :
    (calculateConsensus rs).confidence = calculateConfidence (majorityGroup rs) rs := rfl

lemma calculateConsensus_result (rs : List Response) :
    (calculateConsensus rs).result = synthesizeResponse (majorityGroup rs) := rfl

lemma calculateConsensus_dissenting (rs : List Response) :
    (calculateConsensus rs).dissenting
      = if 0 < (rs.filter (fun r => !decide (r ∈ majorityGroup rs))).length
          then some (rs.filter (fun r => !decide (r ∈ majorityGroup rs)))
          else none := rfl

end ConsensusEngine

/-! ## Claim theorems: similarity and grouping -/

/-- C3: `areSimilar` holds exactly when the Jaccard ratio of the two
case-insensitively whitespace-tokenized content sets exceeds `0.6` (the
ratio being `0` on an empty union); the ratio computed by the code equals
the set-level Jaccard ratio; and two responses with identical token sets
have similarity exactly `1` and always land in the same group. -/
theorem C3_similarity_is_jaccard :
    (∀ a b : Response, ConsensusEngine.areSimilar a b = true ↔
        (6 : ℚ) / 10 < jaccardSpec (tokensFinset a.content) (tokensFinset b.content)) ∧
    (∀ a b : Response, ConsensusEngine.similarityOf a b
        = jaccardSpec (tokensFinset a.content) (tokensFinset b.content)) ∧
    (∀ a b : Response, tokensFinset a.content = tokensFinset b.content →
        ConsensusEngine.similarityOf a b = 1) ∧
    (∀ (rs : List Response) (a b : Response), a ∈ rs → b ∈ rs →
        tokensFinset a.content = tokensFinset b.content →
        ∃ g, g ∈ ConsensusEngine.groupSimilarResponses rs ∧ a ∈ g ∧ b ∈ g) := by
  refine ⟨areSimilar_iff_spec, similarityOf_eq_spec, similarityOf_of_tokens_eq, ?_⟩
  intro rs a b ha hb htok
  exact ConsensusEngine.groupSimilar_colocates rs a b ha hb htok

/-- C3 witness: concrete instantiation — two responses with the same
lowercased tokens are similar, have similarity one, and share a group. -/
theorem C3_similarity_is_jaccard_witness :
    ConsensusEngine.similarityOf
        { content := "Hello World", provider := "a" }
        { content := "world hello", provider := "b" } = 1 ∧
    ∃ g, g ∈ ConsensusEngine.groupSimilarResponses
        [{ content := "Hello World", provider := "a" },
         { content := "world hello", provider := "b" }] ∧
      ({ content := "Hello World", provider := "a" } : Response) ∈ g ∧
      ({ content := "world hello", provider := "b" } : Response) ∈ g := by
  have htok : tokensFinset ("Hello World" : String) = tokensFinset ("world hello" : String) := by
    have h1 : contentTokens ("Hello World") = ["hello", "world"] := by decide
    have h2 : contentTokens ("world hello") = ["world", "hello"] := by decide
    unfold tokensFinset
    rw [h1, h2]
    decide
  refine ⟨C3_similarity_is_jaccard.2.2.1 _ _ htok, ?_⟩
  exact C3_similarity_is_jaccard.2.2.2 _ _ _ (by simp) (by simp) htok

/-- C4 counterexample: for two responses with empty content the code's
similarity is `1`, not `0`, and the grouping places them in one shared
group, not separate ones — JS splits the empty string into `[""]`, so both
token sets are the singleton `{""}`. -/
theorem C4_counterexample_empty_contents :
    ConsensusEngine.similarityOf
        { content := "", provider := "a" } { content := "", provider := "b" } = 1 ∧
    ConsensusEngine.areSimilar
        { content := "", provider := "a" } { content := "", provider := "b" } = true ∧
    ConsensusEngine.groupSimilarResponses
        [{ content := "", provider := "a" }, { content := "", provider := "b" }]
      = [[{ content := "", provider := "a" }, { content := "", provider := "b" }]] := by
  have h1 : contentTokens ("" : String) = [""] := by decide
  have hsim : ConsensusEngine.similarityOf
      { content := "", provider := "a" } { content := "", provider := "b" } = 1 := by
    unfold ConsensusEngine.similarityOf
    show jaccardSim (contentTokens "") (contentTokens "") = 1
    rw [h1]
    simp +decide [jaccardSim]
  have hsimilar : ConsensusEngine.areSimilar
      { content := "", provider := "a" } { content := "", provider := "b" } = true := by
    unfold ConsensusEngine.areSimilar
    rw [hsim]
    norm_num
  refine ⟨hsim, hsimilar, ?_⟩
  rw [ConsensusEngine.groupSimilarResponses_cons]
  simp [hsimilar, ConsensusEngine.groupSimilarResponses_nil]

/-- C4 amended: two responses that both have empty content have similarity
`1` (both token sets are the singleton set of the empty token, because the
JS split of the empty string is `[""]`), so the grouping pass always
places them in the same group. -/
theorem C4_empty_contents_grouped_together (a b : Response)
    (ha : a.content = "") (hb : b.content = "") :
    ConsensusEngine.similarityOf a b = 1 ∧
    ConsensusEngine.areSimilar a b = true ∧
    ∀ rs : List Response, a ∈ rs → b ∈ rs →
      ∃ g, g ∈ ConsensusEngine.groupSimilarResponses rs ∧ a ∈ g ∧ b ∈ g := by
  have htok : tokensFinset a.content = tokensFinset b.content := by rw [ha, hb]
  refine ⟨similarityOf_of_tokens_eq a b htok, areSimilar_of_tokens_eq a b htok, ?_⟩
  intro rs hra hrb
  exact ConsensusEngine.groupSimilar_colocates rs a b hra hrb htok

/-- C4 amended, witness at a concrete input. -/
theorem C4_empty_contents_grouped_together_witness :
    ConsensusEngine.similarityOf
        { content := "", provider := "x" } { content := "", provider := "y" } = 1 ∧
    ConsensusEngine.areSimilar
        { content := "", provider := "x" } { content := "", provider := "y" } = true := by
  have h := C4_empty_contents_grouped_together
    { content := "", provider := "x" } { content := "", provider := "y" } rfl rfl
  exact ⟨h.1, h.2.1⟩

/-- C5: the grouping pass partitions the input — the groups' concatenation
is a permutation of the input (each response occurs with its original
multiplicity), every group is nonempty, distinct groups share no member,
and every response of the input belongs to some group.  Grouping is a pure
function of the response list, so repeating it on the same fixed list
yields identical groups and hence the same majority group. -/
theorem C5_grouping_partitions (rs : List Response) :
    ((ConsensusEngine.groupSimilarResponses rs).flatten).Perm rs ∧
    (∀ g ∈ ConsensusEngine.groupSimilarResponses rs, g ≠ []) ∧
    ((ConsensusEngine.groupSimilarResponses rs).Pairwise fun g₁ g₂ => ∀ a ∈ g₁, a ∉ g₂) ∧
    (∀ a ∈ rs, ∃ g, g ∈ ConsensusEngine.groupSimilarResponses rs ∧ a ∈ g) := by
  refine ⟨ConsensusEngine.groupSimilar_flatten_perm rs,
    fun g hg => ConsensusEngine.ne_nil_of_mem_groupSimilar hg,
    ConsensusEngine.groupSimilar_pairwise_disjoint rs, ?_⟩
  intro a ha
  obtain ⟨g, hg, hag, -⟩ :=
    ConsensusEngine.groupSimilar_colocates rs a a ha ha rfl
  exact ⟨g, hg, hag⟩

/-- C1: for every nonempty response list, agreement is the majority-group
fraction and lies in `[0,1]`; confidence is agreement, multiplied by `1.2`
and capped at `1` exactly when the majority group contains all responses;
`dissenting` is exactly the responses outside the majority group, absent
when there are none; and a single-response consensus has agreement `1`,
confidence `min 1 (1 * 1.2) = 1` and no dissenting responses. -/
theorem C1_agreement_confidence_dissenting (rs : List Response) (h : rs ≠ []) :
    (ConsensusEngine.calculateConsensus rs).agreement
        = ((ConsensusEngine.majorityGroup rs).length : ℚ) / rs.length ∧
    0 ≤ (ConsensusEngine.calculateConsensus rs).agreement ∧
    (ConsensusEngine.calculateConsensus rs).agreement ≤ 1 ∧
    (ConsensusEngine.calculateConsensus rs).confidence
      = (if (ConsensusEngine.majorityGroup rs).length = rs.length
          then min 1 ((ConsensusEngine.calculateConsensus rs).agreement * (12 / 10))
          else (ConsensusEngine.calculateConsensus rs).agreement) ∧
    (ConsensusEngine.calculateConsensus rs).dissenting
      = (if rs.filter (fun r => decide (r ∉ ConsensusEngine.majorityGroup rs)) = []
          then none
          else some (rs.filter (fun r => decide (r ∉ ConsensusEngine.majorityGroup rs)))) ∧
    (∀ r : Response,
      (ConsensusEngine.calculateConsensus [r]).agreement = 1 ∧
      (ConsensusEngine.calculateConsensus [r]).confidence = 1 ∧
      (ConsensusEngine.calculateConsensus [r]).dissenting = none) := by
  have hlen : (0 : ℚ) < rs.length := by
    exact_mod_cast List.length_pos.mpr h
  refine ⟨ConsensusEngine.calculateConsensus_agreement rs, ?_, ?_, ?_, ?_, ?_⟩
  · rw [ConsensusEngine.calculateConsensus_agreement]
    positivity
  · rw [ConsensusEngine.calculateConsensus_agreement]
    rw [div_le_one hlen]
    exact_mod_cast ConsensusEngine.majorityGroup_length_le rs
  · rw [ConsensusEngine.calculateConsensus_confidence,
      ConsensusEngine.calculateConsensus_agreement]
    rfl
  · rw [ConsensusEngine.calculateConsensus_dissenting]
    simp only [decide_not]
    rcases hd : rs.filter (fun r => !decide (r ∈ ConsensusEngine.majorityGroup rs)) with _ | ⟨d, ds⟩
    · simp
    · simp
  · intro r
    have hgroups : ConsensusEngine.groupSimilarResponses [r] = [[r]] := by
      rw [ConsensusEngine.groupSimilarResponses_cons]
      simp [ConsensusEngine.groupSimilarResponses_nil]
    have hmg : ConsensusEngine.majorityGroup [r] = [r] := by
      unfold ConsensusEngine.majorityGroup
      rw [hgroups]
      rfl
    refine ⟨?_, ?_, ?_⟩
    · rw [ConsensusEngine.calculateConsensus_agreement, hmg]
      norm_num
    · rw [ConsensusEngine.calculateConsensus_confidence]
      unfold ConsensusEngine.calculateConfidence
      rw [hmg]
      norm_num
    · rw [ConsensusEngine.calculateConsensus_dissenting, hmg]
      simp

/-- C1 witness: the single-provider scenario at a concrete response. -/
theorem C1_agreement_confidence_dissenting_witness :
    (ConsensusEngine.calculateConsensus [{ content := "ok", provider := "a" }]).agreement = 1 ∧
    (ConsensusEngine.calculateConsensus [{ content := "ok", provider := "a" }]).confidence = 1 ∧
    (ConsensusEngine.calculateConsensus [{ content := "ok", provider := "a" }]).dissenting
      = none :=
  (C1_agreement_confidence_dissenting [{ content := "ok", provider := "a" }] (by simp)).2.2.2.2.2
    { content := "ok", provider := "a" }

lemma areSimilar_postgres_pair :
    ConsensusEngine.areSimilar respPostgresA respPostgresB = true := by
  apply areSimilar_of_tokens_eq
  unfold tokensFinset respPostgresA respPostgresB
  have h1 : contentTokens ("Use Postgres") = ["use", "postgres"] := by decide
  rw [h1]

lemma similarityOf_postgres_mongo :
    ConsensusEngine.similarityOf respPostgresA respMongoC = 1 / 3 := by
  unfold ConsensusEngine.similarityOf respPostgresA respMongoC
  have h1 : contentTokens ("Use Postgres") = ["use", "postgres"] := by decide
  have h2 : contentTokens ("Use MongoDB") = ["use", "mongodb"] := by decide
  show jaccardSim (contentTokens ("Use Postgres")) (contentTokens ("Use MongoDB")) = 1 / 3
  rw [h1, h2]
  simp +decide [jaccardSim]

lemma areSimilar_postgres_mongo :
    ConsensusEngine.areSimilar respPostgresA respMongoC = false := by
  unfold ConsensusEngine.areSimilar
  rw [decide_eq_false_iff_not, similarityOf_postgres_mongo]
  norm_num

lemma scenario1_groups :
    ConsensusEngine.groupSimilarResponses [respPostgresA, respPostgresB, respMongoC]
      = [[respPostgresA, respPostgresB], [respMongoC]] := by
  rw [ConsensusEngine.groupSimilarResponses_cons]
  simp only [List.filter_cons, areSimilar_postgres_pair, areSimilar_postgres_mongo,
    List.filter_nil, Bool.not_true, Bool.not_false, if_true, if_false]
  simp [ConsensusEngine.groupSimilarResponses_cons,
    ConsensusEngine.groupSimilarResponses_nil]

lemma scenario1_majority :
    ConsensusEngine.majorityGroup [respPostgresA, respPostgresB, respMongoC]
      = [respPostgresA, respPostgresB] := by
  unfold ConsensusEngine.majorityGroup
  rw [scenario1_groups]
  rfl

/-- C2: the majority group is the group with the largest member count,
ties broken in favor of the first-encountered group, and the returned
result text is the content of the first response of that group; on the
concrete scenario `"Use Postgres"`, `"Use Postgres"`, `"Use MongoDB"` the
majority group has size 2, agreement is `2/3` and dissenting is exactly
the MongoDB response. -/
theorem C2_majority_selection_and_synthesis (rs : List Response) (h : rs ≠ []) :
    (∃ l₁ l₂, ConsensusEngine.groupSimilarResponses rs
        = l₁ ++ ConsensusEngine.majorityGroup rs :: l₂ ∧
      (∀ g ∈ l₁, g.length < (ConsensusEngine.majorityGroup rs).length) ∧
      (∀ g ∈ l₂, g.length ≤ (ConsensusEngine.majorityGroup rs).length)) ∧
    (∃ r rest, ConsensusEngine.majorityGroup rs = r :: rest ∧
      (ConsensusEngine.calculateConsensus rs).result = r.content) ∧
    (ConsensusEngine.majorityGroup [respPostgresA, respPostgresB, respMongoC]).length = 2 ∧
    (ConsensusEngine.calculateConsensus [respPostgresA, respPostgresB, respMongoC]).agreement
      = 2 / 3 ∧
    (ConsensusEngine.calculateConsensus [respPostgresA, respPostgresB, respMongoC]).dissenting
      = some [respMongoC] := by
  refine ⟨?_, ?_, ?_, ?_, ?_⟩
  · rcases hgr : ConsensusEngine.groupSimilarResponses rs with _ | ⟨g, gs⟩
    · exact absurd hgr (ConsensusEngine.groupSimilarResponses_ne_nil h)
    · obtain ⟨l₁, l₂, heq, hlt, hle⟩ := ConsensusEngine.largestGroupOf_decomp g gs
      have hmg : ConsensusEngine.majorityGroup rs
          = ConsensusEngine.largestGroupOf (g :: gs) := by
        unfold ConsensusEngine.majorityGroup
        rw [hgr]
      refine ⟨l₁, l₂, ?_, ?_, ?_⟩
      · rw [hmg]
        exact heq
      · rw [hmg]
        exact hlt
      · rw [hmg]
        exact hle
  · rcases hm : ConsensusEngine.majorityGroup rs with _ | ⟨r, rest⟩
    · exact absurd hm (ConsensusEngine.majorityGroup_ne_nil h)
    · refine ⟨r, rest, rfl, ?_⟩
      rw [ConsensusEngine.calculateConsensus_result, hm]
      rfl
  · rw [scenario1_majority]
    rfl
  · rw [ConsensusEngine.calculateConsensus_agreement, scenario1_majority]
    norm_num
  · rw [ConsensusEngine.calculateConsensus_dissenting, scenario1_majority]
    simp +decide [respPostgresA, respPostgresB, respMongoC]

/-- C2 witness: instantiation at the scenario-1 response list. -/
theorem C2_majority_selection_and_synthesis_witness :
    (ConsensusEngine.calculateConsensus [respPostgresA, respPostgresB, respMongoC]).agreement
        = 2 / 3 ∧
    (ConsensusEngine.calculateConsensus [respPostgresA, respPostgresB, respMongoC]).dissenting
        = some [respMongoC] :=
  ⟨(C2_majority_selection_and_synthesis [respPostgresA, respPostgresB, respMongoC]
      (by simp)).2.2.2.1,
   (C2_majority_selection_and_synthesis [respPostgresA, respPostgresB, respMongoC]
      (by simp)).2.2.2.2⟩

/-- C5 witness: concrete instantiation of the partition facts. -/
theorem C5_grouping_partitions_witness :
    ((ConsensusEngine.groupSimilarResponses
        [{ content := "x", provider := "a" }, { content := "y z", provider := "b" }]).flatten).Perm
      [{ content := "x", provider := "a" }, { content := "y z", provider := "b" }] ∧
    ∃ g, g ∈ ConsensusEngine.groupSimilarResponses
        [{ content := "x", provider := "a" }, { content := "y z", provider := "b" }] ∧
      ({ content := "x", provider := "a" } : Response) ∈ g := by
  refine ⟨(C5_grouping_partitions _).1, ?_⟩
  exact (C5_grouping_partitions
    [{ content := "x", provider := "a" }, { content := "y z", provider := "b" }]).2.2.2
    { content := "x", provider := "a" } (by simp)

/-! ## Debate loop invariants -/

/-- The conclusion package of `debateLoop_spec`: round count within budget
and monotone, contiguous numbering from 1, per-round agreement correctly
recorded, the returned agreement is the last round's, and the loop exits
only on convergence or budget exhaustion. -/
lemma debateLoop_exit {γ : Type} (env : ℕ → String → Except γ (List Response))
    (threshold : ℚ) (maxRounds round : ℕ) (prompt : String)
    (rounds : List DebateRound) (agreement : ℚ)
    (hguard : ¬(agreement < threshold ∧ round < maxRounds))
    (hlen : rounds.length = round) (hrd : round ≤ maxRounds)
    (hmap : rounds.map DebateRound.round = List.range' 1 rounds.length)
    (hag : ∀ dr ∈ rounds, dr.agreement = Orchestra.calculateAgreement dr.arguments)
    (hlast : ∀ lr, rounds.getLast? = some lr → lr.agreement = agreement)
    (out : List DebateRound × ℚ)
    (hout : Orchestra.debateLoop env threshold maxRounds round prompt rounds agreement
      = .ok out) :
    out.1.length ≤ maxRounds ∧
    rounds.length ≤ out.1.length ∧
    out.1.map DebateRound.round = List.range' 1 out.1.length ∧
    (∀ dr ∈ out.1, dr.agreement = Orchestra.calculateAgreement dr.arguments) ∧
    (∀ lr, out.1.getLast? = some lr → lr.agreement = out.2) ∧
    (threshold ≤ out.2 ∨ out.1.length = maxRounds) ∧
    (out.1 = rounds → out.2 = agreement) := by
  rw [Orchestra.debateLoop, dif_neg hguard] at hout
  injection hout with h
  subst h
  dsimp only
  refine ⟨by omega, le_refl _, hmap, hag, hlast, ?_, fun _ => rfl⟩
  by_cases hq : agreement < threshold
  · right
    have : ¬round < maxRounds := fun hr => hguard ⟨hq, hr⟩
    omega
  · exact Or.inl (le_of_not_lt hq)

lemma debateLoop_spec {γ : Type} (env : ℕ → String → Except γ (List Response))
    (threshold : ℚ) (maxRounds : ℕ) :
    ∀ (fuel round : ℕ) (prompt : String) (rounds : List DebateRound) (agreement : ℚ),
      maxRounds - round = fuel →
      rounds.length = round →
      round ≤ maxRounds →
      rounds.map DebateRound.round = List.range' 1 rounds.length →
      (∀ dr ∈ rounds, dr.agreement = Orchestra.calculateAgreement dr.arguments) →
      (∀ lr, rounds.getLast? = some lr → lr.agreement = agreement) →
      ∀ out, Orchestra.debateLoop env threshold maxRounds round prompt rounds agreement
          = .ok out →
        out.1.length ≤ maxRounds ∧
        rounds.length ≤ out.1.length ∧
        out.1.map DebateRound.round = List.range' 1 out.1.length ∧
        (∀ dr ∈ out.1, dr.agreement = Orchestra.calculateAgreement dr.arguments) ∧
        (∀ lr, out.1.getLast? = some lr → lr.agreement = out.2) ∧
        (threshold ≤ out.2 ∨ out.1.length = maxRounds) ∧
        (out.1 = rounds → out.2 = agreement) := by
  intro fuel
  induction fuel with
  | zero =>
    intro round prompt rounds agreement hfuel hlen hrd hmap hag hlast out hout
    have hguard : ¬(agreement < threshold ∧ round < maxRounds) := by
      rintro ⟨-, hr⟩
      omega
    exact debateLoop_exit env threshold maxRounds round prompt rounds agreement
      hguard hlen hrd hmap hag hlast out hout
  | succ n ih =>
    intro round prompt rounds agreement hfuel hlen hrd hmap hag hlast out hout
    by_cases hguard : agreement < threshold ∧ round < maxRounds
    · rw [Orchestra.debateLoop, dif_pos hguard] at hout
      rcases henv : env (round + 1) prompt with e | responses
      · rw [henv] at hout
        cases hout
      · rw [henv] at hout
        have hout' : Orchestra.debateLoop env threshold maxRounds (round + 1)
            (if Orchestra.calculateAgreement responses < threshold ∧ round + 1 < maxRounds
              then Orchestra.buildDebatePrompt prompt
                (rounds ++ [Orchestra.mkDebateRound (round + 1) responses
                  (Orchestra.calculateAgreement responses)])
              else prompt)
            (rounds ++ [Orchestra.mkDebateRound (round + 1) responses
              (Orchestra.calculateAgreement responses)])
            (Orchestra.calculateAgreement responses) = .ok out := hout
        have hmap' : (rounds ++ [Orchestra.mkDebateRound (round + 1) responses
            (Orchestra.calculateAgreement responses)]).map DebateRound.round
            = List.range' 1 (rounds ++ [Orchestra.mkDebateRound (round + 1) responses
                (Orchestra.calculateAgreement responses)]).length := by
          rw [List.map_append, hmap, hlen]
          have h1 : List.map DebateRound.round
              [Orchestra.mkDebateRound (round + 1) responses
                (Orchestra.calculateAgreement responses)] = [round + 1] := rfl
          have h2 : (rounds ++ [Orchestra.mkDebateRound (round + 1) responses
              (Orchestra.calculateAgreement responses)]).length = round + 1 := by
            simp [hlen]
          rw [h1, h2, List.range'_concat]
          have h3 : 1 + 1 * round = round + 1 := by ring
          rw [h3]
        have hag' : ∀ dr ∈ rounds ++ [Orchestra.mkDebateRound (round + 1) responses
            (Orchestra.calculateAgreement responses)],
            dr.agreement = Orchestra.calculateAgreement dr.arguments := by
          intro dr hdr
          rcases List.mem_append.mp hdr with hdr' | hdr'
          · exact hag dr hdr'
          · rw [List.mem_singleton.mp hdr']
            rfl
        have hlast' : ∀ lr, (rounds ++ [Orchestra.mkDebateRound (round + 1) responses
            (Orchestra.calculateAgreement responses)]).getLast? = some lr →
            lr.agreement = Orchestra.calculateAgreement responses := by
          intro lr hlr
          rw [List.getLast?_concat] at hlr
          injection hlr with hlr'
          rw [← hlr']
          rfl
        obtain ⟨c1, c2, c3, c4, c5, c6, c7⟩ := ih (round + 1) _ _ _ (by omega)
          (by simp [hlen]) (by omega) hmap' hag' hlast' out hout'
        have hNR : (rounds ++ [Orchestra.mkDebateRound (round + 1) responses
            (Orchestra.calculateAgreement responses)]).length = rounds.length + 1 := by
          simp
        refine ⟨c1, by omega, c3, c4, c5, c6, ?_⟩
        intro heq
        exfalso
        have hlo := congrArg List.length heq
        omega
    · exact debateLoop_exit env threshold maxRounds round prompt rounds agreement
        hguard hlen hrd hmap hag hlast out hout

/-- When every per-round fan-out settles successfully, the loop terminates
normally with an `.ok` result. -/
lemma debateLoop_total {γ : Type} (env : ℕ → String → Except γ (List Response))
    (threshold : ℚ) (maxRounds : ℕ)
    (htotal : ∀ r p, ∃ rs, env r p = .ok rs) :
    ∀ (fuel round : ℕ) (prompt : String) (rounds : List DebateRound) (agreement : ℚ),
      maxRounds - round = fuel →
      ∃ out, Orchestra.debateLoop env threshold maxRounds round prompt rounds agreement
        = .ok out := by
  intro fuel
  induction fuel with
  | zero =>
    intro round prompt rounds agreement hfuel
    have hguard : ¬(agreement < threshold ∧ round < maxRounds) := by
      rintro ⟨-, hr⟩
      omega
    exact ⟨(rounds, agreement), by rw [Orchestra.debateLoop, dif_neg hguard]⟩
  | succ n ih =>
    intro round prompt rounds agreement hfuel
    by_cases hguard : agreement < threshold ∧ round < maxRounds
    · obtain ⟨responses, henv⟩ := htotal (round + 1) prompt
      obtain ⟨out, hout⟩ := ih (round + 1)
        (if Orchestra.calculateAgreement responses < threshold ∧ round + 1 < maxRounds
          then Orchestra.buildDebatePrompt prompt
            (rounds ++ [Orchestra.mkDebateRound (round + 1) responses
              (Orchestra.calculateAgreement responses)])
          else prompt)
        (rounds ++ [Orchestra.mkDebateRound (round + 1) responses
          (Orchestra.calculateAgreement responses)])
        (Orchestra.calculateAgreement responses) (by omega)
      refine ⟨out, ?_⟩
      rw [Orchestra.debateLoop, dif_pos hguard, henv]
      exact hout
    · exact ⟨(rounds, agreement), by rw [Orchestra.debateLoop, dif_neg hguard]⟩

/-- C6: for every debate call (resolved threshold `t > 0`, round budget
`maxRounds > 0`), a normally-returned result ran at most `maxRounds`
rounds, recorded contiguous round numbers starting at 1, holds the final
round's agreement, and the loop exited exactly on convergence
(`agreement ≥ t`) or budget exhaustion (`rounds = maxRounds`); moreover
when every per-round fan-out settles, the call does return normally
rather than failing. -/
theorem C6_debate_round_budget_and_exit (γ : Type)
    (env : ℕ → String → Except γ (List Response)) (providers : List String)
    (threshold : ℚ) (maxRounds : ℕ) (prompt : String)
    (ht : 0 < threshold) (hm : 0 < maxRounds) :
    (∀ result, Orchestra.debateRun env providers threshold maxRounds prompt = .ok result →
      result.rounds.length ≤ maxRounds ∧
      result.rounds ≠ [] ∧
      result.rounds.map DebateRound.round = List.range' 1 result.rounds.length ∧
      (threshold ≤ result.agreement ∨ result.rounds.length = maxRounds) ∧
      (∀ lr, result.rounds.getLast? = some lr → result.agreement = lr.agreement)) ∧
    ((∀ r p, ∃ rs, env r p = .ok rs) →
      ∃ result, Orchestra.debateRun env providers threshold maxRounds prompt
        = .ok result) := by
  constructor
  · intro result hres
    unfold Orchestra.debateRun at hres
    rcases hd : Orchestra.debateLoop env threshold maxRounds 0 prompt [] 0 with e | p
    · rw [hd] at hres
      cases hres
    · rcases p with ⟨rounds, agreement⟩
      rw [hd] at hres
      obtain ⟨c1, c2, c3, c4, c5, c6, c7⟩ := debateLoop_spec env threshold maxRounds
        (maxRounds - 0) 0 prompt [] 0 rfl rfl (Nat.zero_le _) (by simp) (by simp)
        (by simp) (rounds, agreement) hd
      injection hres with hres'
      subst hres'
      dsimp only at c1 c3 c5 c6 c7 ⊢
      refine ⟨c1, ?_, c3, c6, ?_⟩
      · intro hnil
        have h0 : agreement = 0 := c7 hnil
        rcases c6 with h | h
        · rw [h0] at h
          exact absurd (lt_of_lt_of_le ht h) (lt_irrefl 0)
        · rw [hnil] at h
          simp at h
          omega
      · intro lr hlr
        exact (c5 lr hlr).symm
  · intro htotal
    obtain ⟨out, hout⟩ := debateLoop_total env threshold maxRounds htotal
      (maxRounds - 0) 0 prompt [] 0 rfl
    rcases out with ⟨rounds, agreement⟩
    refine Exists.intro
      { decision := Orchestra.synthesizeDecision rounds
        rounds := rounds
        agreement := agreement
        participants := providers
        confidence := agreement } ?_
    unfold Orchestra.debateRun
    rw [hout]

/-- C6 witness: a concrete single-provider debate call returns normally. -/
theorem C6_debate_round_budget_and_exit_witness :
    (0 : ℚ) < 7 / 10 ∧ (0 : ℕ) < 3 ∧
    ∃ result, Orchestra.debateRun
        (fun _ _ => (Except.ok [{ content := "yes", provider := "a" }]
          : Except Unit (List Response)))
        [("a" : String)] (7 / 10) 3 ("q") = .ok result := by
  refine ⟨by norm_num, by norm_num, ?_⟩
  exact (C6_debate_round_budget_and_exit Unit
    (fun _ _ => (Except.ok [{ content := "yes", provider := "a" }]
      : Except Unit (List Response)))
    [("a" : String)] (7 / 10) 3 ("q") (by norm_num) (by norm_num)).2
    (fun r p => ⟨_, rfl⟩)

/-! ## The pairwise-agreement sum of `calculateAgreement` -/

lemma sum_map_getD {α : Type} (h : α → ℚ) (d : α) :
    ∀ l : List α, (∑ j in Finset.range l.length, h (l.getD j d)) = (l.map h).sum := by
  intro l
  induction l with
  | nil => simp
  | cons x xs ih =>
    rw [List.length_cons, Finset.sum_range_succ']
    simp only [List.getD_cons_succ, List.getD_cons_zero]
    rw [ih, List.map_cons, List.sum_cons]
    ring

/-- The double loop of `calculateAgreement` sums `f` over exactly the
index pairs `i < j` of the list. -/
lemma allPairs_map_sum {α : Type} (f : α → α → ℚ) (d : α) :
    ∀ l : List α, ((Orchestra.allPairs l).map fun p => f p.1 p.2).sum
      = ∑ i in Finset.range l.length, ∑ j in Finset.range l.length,
          if i < j then f (l.getD i d) (l.getD j d) else 0 := by
  intro l
  induction l with
  | nil => simp [Orchestra.allPairs]
  | cons x xs ih =>
    have hLHS : ((Orchestra.allPairs (x :: xs)).map fun p => f p.1 p.2).sum
        = (xs.map fun y => f x y).sum
          + ((Orchestra.allPairs xs).map fun p => f p.1 p.2).sum := by
      rw [Orchestra.allPairs, List.map_append, List.sum_append, List.map_map]
      rfl
    have hzero : (∑ j in Finset.range (xs.length + 1),
        if 0 < j then f ((x :: xs).getD 0 d) ((x :: xs).getD j d) else 0)
        = (xs.map fun y => f x y).sum := by
      rw [Finset.sum_range_succ']
      simp only [List.getD_cons_succ, List.getD_cons_zero, Nat.zero_lt_succ, if_true,
        lt_irrefl, if_false, add_zero]
      exact sum_map_getD (fun y => f x y) d xs
    have hsucc : ∀ i, (∑ j in Finset.range (xs.length + 1),
        if i + 1 < j then f ((x :: xs).getD (i + 1) d) ((x :: xs).getD j d) else 0)
        = ∑ j in Finset.range xs.length,
            if i < j then f (xs.getD i d) (xs.getD j d) else 0 := by
      intro i
      rw [Finset.sum_range_succ']
      simp only [List.getD_cons_succ, List.getD_cons_zero, Nat.add_lt_add_iff_right,
        Nat.not_lt_zero, if_false, add_zero]
    rw [hLHS, ih, List.length_cons, Finset.sum_range_succ', hzero]
    rw [Finset.sum_congr rfl (fun i _ => hsucc i)]
    ring

lemma allPairs_length {α : Type} :
    ∀ l : List α, (Orchestra.allPairs l).length = l.length.choose 2 := by
  intro l
  induction l with
  | nil => simp [Orchestra.allPairs]
  | cons x xs ih =>
    rw [Orchestra.allPairs]
    rw [List.length_append, List.length_map, ih, List.length_cons]
    rw [Nat.choose_succ_succ, Nat.choose_one_right]

/-- C7: a debate round's agreement is the average pairwise Jaccard
similarity over the tokenized (lowercased, whitespace-split) contents of
all responses — every `i < j` pair compared, no grouping — defined as `1`
for at most one participant; and a returned `DebateResult` has
`confidence` equal to its `agreement`, each recorded round's agreement
being `calculateAgreement` of its arguments. -/
theorem C7_agreement_is_mean_pairwise_jaccard :
    (∀ rs : List Response, rs.length ≤ 1 → Orchestra.calculateAgreement rs = 1) ∧
    (∀ rs : List Response, 2 ≤ rs.length →
      Orchestra.calculateAgreement rs
        = (∑ i in Finset.range rs.length, ∑ j in Finset.range rs.length,
            if i < j then
              jaccardSpec (tokensFinset (rs.getD i default).content)
                (tokensFinset (rs.getD j default).content)
            else 0) / (rs.length.choose 2 : ℚ)) ∧
    (∀ (γ : Type) (env : ℕ → String → Except γ (List Response))
        (providers : List String) (threshold : ℚ) (maxRounds : ℕ) (prompt : String)
        (result : DebateResult),
      Orchestra.debateRun env providers threshold maxRounds prompt = .ok result →
      result.confidence = result.agreement ∧
      ∀ dr ∈ result.rounds, dr.agreement = Orchestra.calculateAgreement dr.arguments) := by
  refine ⟨?_, ?_, ?_⟩
  · intro rs h1
    unfold Orchestra.calculateAgreement
    rw [if_pos h1]
  · intro rs h2
    unfold Orchestra.calculateAgreement
    rw [if_neg (by omega)]
    dsimp only
    rw [List.length_map, allPairs_length, List.length_map]
    rw [if_pos (Nat.choose_pos h2)]
    rw [allPairs_map_sum Orchestra.calculateSimilarity ("") (rs.map fun r => jsToLower r.content)]
    rw [List.length_map]
    congr 1
    refine Finset.sum_congr rfl ?_
    intro i hi
    refine Finset.sum_congr rfl ?_
    intro j hj
    by_cases hij : i < j
    · rw [if_pos hij, if_pos hij]
      rw [List.getD_eq_getElem _ _ (by rw [List.length_map]; exact Finset.mem_range.mp hi)]
      rw [List.getD_eq_getElem _ _ (by rw [List.length_map]; exact Finset.mem_range.mp hj)]
      rw [List.getElem_map, List.getElem_map]
      rw [List.getD_eq_getElem _ _ (Finset.mem_range.mp hi),
        List.getD_eq_getElem _ _ (Finset.mem_range.mp hj)]
      exact jaccardSim_eq_spec _ _ (rawTokens_nodup _)
    · rw [if_neg hij, if_neg hij]
  · intro γ env providers threshold maxRounds prompt result hres
    unfold Orchestra.debateRun at hres
    rcases hd : Orchestra.debateLoop env threshold maxRounds 0 prompt [] 0 with e | p
    · rw [hd] at hres
      cases hres
    · rcases p with ⟨rounds, agreement⟩
      rw [hd] at hres
      obtain ⟨-, -, -, c4, -, -, -⟩ := debateLoop_spec env threshold maxRounds
        (maxRounds - 0) 0 prompt [] 0 rfl rfl (Nat.zero_le _) (by simp) (by simp)
        (by simp) (rounds, agreement) hd
      injection hres with hres'
      subst hres'
      exact ⟨rfl, c4⟩

/-- C7 witness: concrete instantiations — a singleton round has agreement
1, a two-response round averages over the single pair, and a concrete
debate result has confidence equal to agreement. -/
theorem C7_agreement_is_mean_pairwise_jaccard_witness :
    Orchestra.calculateAgreement [{ content := "ok", provider := "a" }] = 1 ∧
    Orchestra.calculateAgreement
        [{ content := "a b", provider := "a" }, { content := "a c", provider := "b" }]
      = (∑ i in Finset.range 2, ∑ j in Finset.range 2,
          if i < j then
            jaccardSpec
              (tokensFinset (([{ content := "a b", provider := "a" },
                { content := "a c", provider := "b" }] : List Response).getD i default).content)
              (tokensFinset (([{ content := "a b", provider := "a" },
                { content := "a c", provider := "b" }] : List Response).getD j default).content)
          else 0) / ((2 : ℕ).choose 2 : ℚ) ∧
    ∃ result, Orchestra.debateRun
        (fun _ _ => (Except.ok [{ content := "yes", provider := "a" }]
          : Except Unit (List Response)))
        [("a" : String)] (7 / 10) 3 ("q") = .ok result ∧
      result.confidence = result.agreement := by
  refine ⟨C7_agreement_is_mean_pairwise_jaccard.1 _ (by simp),
    C7_agreement_is_mean_pairwise_jaccard.2.1 _ (by simp), ?_⟩
  obtain ⟨out, hout⟩ := debateLoop_total
    (fun _ _ => (Except.ok [{ content := "yes", provider := "a" }]
      : Except Unit (List Response)))
    (7 / 10) 3 (fun r p => ⟨_, rfl⟩) (3 - 0) 0 ("q") [] 0 rfl
  rcases out with ⟨rounds, agreement⟩
  have hres : Orchestra.debateRun
      (fun _ _ => (Except.ok [{ content := "yes", provider := "a" }]
        : Except Unit (List Response)))
      [("a" : String)] (7 / 10) 3 ("q")
      = .ok { decision := Orchestra.synthesizeDecision rounds
              rounds := rounds
              agreement := agreement
              participants := [("a" : String)]
              confidence := agreement } := by
    unfold Orchestra.debateRun
    rw [hout]
  refine ⟨_, hres, ?_⟩
  exact (C7_agreement_is_mean_pairwise_jaccard.2.2 Unit _ _ _ _ _ _ hres).1

/-! ## Fan-out failure propagation -/

lemma getResponses_ne_noProviders {ε : Type} (reg : Registry ε) (prompt : String) :
    ∀ names, ConsensusEngine.getResponses reg prompt names
      ≠ .error OrchestraError.noProviders := by
  intro names
  induction names with
  | nil => simp [ConsensusEngine.getResponses]
  | cons name rest ih =>
    rcases hg : ProviderRegistry.get reg name with _ | p
    · simp [ConsensusEngine.getResponses, hg]
    · rcases hc : p.complete prompt with e | r
      · simp [ConsensusEngine.getResponses, hg, hc]
      · rcases hr : ConsensusEngine.getResponses reg prompt rest with err | rs
        · simp only [ConsensusEngine.getResponses, hg, hc, hr]
          intro heq
          injection heq with heq'
          rw [heq'] at hr
          exact ih hr
        · simp [ConsensusEngine.getResponses, hg, hc, hr]

lemma getResponses_not_ok {ε : Type} (reg : Registry ε) (prompt : String)
    (name : String) (pn : Provider ε) (e : ε)
    (hget : ProviderRegistry.get reg name = some pn)
    (herr : pn.complete prompt = .error e) :
    ∀ names, name ∈ names →
      ∀ rs, ConsensusEngine.getResponses reg prompt names ≠ .ok rs := by
  intro names
  induction names with
  | nil => intro h; cases h
  | cons m rest ih =>
    intro hmem rs hok
    rcases hg : ProviderRegistry.get reg m with _ | p
    · simp [ConsensusEngine.getResponses, hg] at hok
    · rcases hc : p.complete prompt with e' | r
      · simp [ConsensusEngine.getResponses, hg, hc] at hok
      · rcases hr : ConsensusEngine.getResponses reg prompt rest with err | rs'
        · simp [ConsensusEngine.getResponses, hg, hc, hr] at hok
        · rcases List.mem_cons.mp hmem with heq | hmem'
          · rw [← heq] at hg
            rw [hget] at hg
            injection hg with hg'
            rw [← hg'] at hc
            rw [herr] at hc
            cases hc
          · exact ih hmem' rs' hr

lemma getResponses_unique_failure {ε : Type} (reg : Registry ε) (prompt : String)
    (name : String) (pn : Provider ε) (e : ε)
    (hget : ProviderRegistry.get reg name = some pn)
    (herr : pn.complete prompt = .error e) :
    ∀ names, name ∈ names →
      (∀ m ∈ names, m ≠ name →
        ∃ pm rm, ProviderRegistry.get reg m = some pm ∧ pm.complete prompt = .ok rm) →
      ConsensusEngine.getResponses reg prompt names
        = .error (.providerCall name e) := by
  intro names
  induction names with
  | nil => intro h; cases h
  | cons m rest ih =>
    intro hmem hsucc
    by_cases hm : m = name
    · subst hm
      simp [ConsensusEngine.getResponses, hget, herr]
    · obtain ⟨pm, rm, hgm, hcm⟩ := hsucc m (List.mem_cons_self _ _) hm
      have hmem' : name ∈ rest := by
        rcases List.mem_cons.mp hmem with h | h
        · exact absurd h.symm hm
        · exact h
      have hrec := ih hmem' fun m' hm' hne => hsucc m' (List.mem_cons_of_mem _ hm') hne
      simp [ConsensusEngine.getResponses, hgm, hcm, hrec]

/-- C8: `buildConsensus` fails with the no-providers error exactly when
the resolved provider set is empty; and when a resolved provider's
`complete` call rejects, the whole call rejects — never returning a
(partial) result — and, when that provider is the unique failure, rejects
with exactly that provider's propagated rejection. -/
theorem C8_no_providers_and_rejection_propagation (ε : Type) (reg : Registry ε)
    (prompt : String) (optProviders : Option (List String)) :
    (ConsensusEngine.buildConsensus reg prompt optProviders
        = .error OrchestraError.noProviders
      ↔ ConsensusEngine.resolveProviders reg optProviders = []) ∧
    (∀ (name : String) (pn : Provider ε) (e : ε)
        (res : ConsensusEngine.ConsensusResult),
      name ∈ ConsensusEngine.resolveProviders reg optProviders →
      ProviderRegistry.get reg name = some pn →
      pn.complete prompt = .error e →
      ConsensusEngine.buildConsensus reg prompt optProviders ≠ .ok res) ∧
    (∀ (name : String) (pn : Provider ε) (e : ε),
      name ∈ ConsensusEngine.resolveProviders reg optProviders →
      ProviderRegistry.get reg name = some pn →
      pn.complete prompt = .error e →
      (∀ m ∈ ConsensusEngine.resolveProviders reg optProviders, m ≠ name →
        ∃ pm rm, ProviderRegistry.get reg m = some pm ∧ pm.complete prompt = .ok rm) →
      ConsensusEngine.buildConsensus reg prompt optProviders
        = .error (.providerCall name e)) := by
  refine ⟨?_, ?_, ?_⟩
  · unfold ConsensusEngine.buildConsensus
    by_cases hn : (ConsensusEngine.resolveProviders reg optProviders).length = 0
    · rw [if_pos hn]
      simp [List.length_eq_zero.mp hn]
    · rw [if_neg hn]
      constructor
      · intro heq
        rcases hr : ConsensusEngine.getResponses reg prompt
            (ConsensusEngine.resolveProviders reg optProviders) with err | rs
        · rw [hr] at heq
          injection heq with heq'
          rw [heq'] at hr
          exact absurd hr (getResponses_ne_noProviders reg prompt _)
        · rw [hr] at heq
          cases heq
      · intro heq
        exact absurd (congrArg List.length heq) hn
  · intro name pn e res hmem hget herr hok
    unfold ConsensusEngine.buildConsensus at hok
    rw [if_neg (by
      intro h0
      rw [List.length_eq_zero.mp h0] at hmem
      cases hmem)] at hok
    rcases hr : ConsensusEngine.getResponses reg prompt
        (ConsensusEngine.resolveProviders reg optProviders) with err | rs
    · rw [hr] at hok
      cases hok
    · exact getResponses_not_ok reg prompt name pn e hget herr _ hmem rs hr
  · intro name pn e hmem hget herr hsucc
    unfold ConsensusEngine.buildConsensus
    rw [if_neg (by
      intro h0
      rw [List.length_eq_zero.mp h0] at hmem
      cases hmem)]
    rw [getResponses_unique_failure reg prompt name pn e hget herr _ hmem hsucc]

/-- C8 witness: the empty registry yields the no-providers error, and a
3-step scenario — the rejecting provider among resolving ones — rejects
the whole call with that provider's propagated failure. -/
theorem C8_no_providers_and_rejection_propagation_witness :
    ConsensusEngine.buildConsensus ([] : Registry String) ("q") none
      = .error OrchestraError.noProviders ∧
    ConsensusEngine.buildConsensus fanoutDemoRegistry ("q") none
      = .error (.providerCall ("b") ("boom")) := by
  constructor
  · exact (C8_no_providers_and_rejection_propagation String [] ("q") none).1.mpr rfl
  · refine (C8_no_providers_and_rejection_propagation String fanoutDemoRegistry
      ("q") none).2.2 ("b") failingProvider ("boom") (by simp [fanoutDemoRegistry,
        ConsensusEngine.resolveProviders, ProviderRegistry.list]) rfl rfl ?_
    intro m hm hne
    simp [fanoutDemoRegistry, ConsensusEngine.resolveProviders,
      ProviderRegistry.list] at hm
    rcases hm with rfl | rfl
    · exact ⟨goodProvider, { content := "fine", provider := "g" }, rfl, rfl⟩
    · exact absurd rfl hne

/-! ## Health check and registry dynamics -/

lemma find?_self_of_nodup {ε : Type} :
    ∀ reg : Registry ε, (reg.map fun e => e.1).Nodup →
      ∀ e ∈ reg, reg.find? (fun x => x.1 == e.1) = some e := by
  intro reg
  induction reg with
  | nil => intro _ e he; cases he
  | cons hd tl ih =>
    intro hnd e he
    rcases List.mem_cons.mp he with heq | hmem
    · rw [heq]
      exact List.find?_cons_of_pos _ (by simp)
    · have hne : ¬(hd.1 == e.1) = true := by
        have h1 : hd.1 ∉ tl.map fun x => x.1 := by
          rw [List.map_cons] at hnd
          exact (List.nodup_cons.mp hnd).1
        have h2 : e.1 ∈ tl.map fun x => x.1 := List.mem_map_of_mem _ hmem
        simp only [beq_iff_eq]
        intro heq'
        rw [heq'] at h1
        exact h1 h2
      rw [@List.find?_cons_of_neg _ (fun x => x.1 == e.1) hd tl hne]
      refine ih ?_ e hmem
      rw [List.map_cons] at hnd
      exact (List.nodup_cons.mp hnd).2

/-- C9: `healthCheck` returns one boolean entry per registered provider,
in registry order: the probe's result, `true` when the provider exposes
no probe, `false` when the probe rejects.  Each entry is computed from
that provider alone, so one probe failure never affects another entry,
and the function is total — no probe failure fails the whole call. -/
theorem C9_healthCheck_per_provider_isolation (ε : Type) (st : OrchestraState ε)
    (hnd : (st.registry.map fun e => e.1).Nodup) :
    ((Orchestra.healthCheck st).map fun e => e.1) = ProviderRegistry.list st.registry ∧
    Orchestra.healthCheck st
      = st.registry.map fun e => (e.1, Orchestra.probeResult e.2) := by
  have hmain : Orchestra.healthCheck st
      = st.registry.map fun e => (e.1, Orchestra.probeResult e.2) := by
    unfold Orchestra.healthCheck ProviderRegistry.list
    rw [List.map_map]
    refine List.map_congr_left ?_
    intro e he
    simp only [Function.comp]
    have hget : ProviderRegistry.get st.registry e.1 = some e.2 := by
      unfold ProviderRegistry.get
      rw [find?_self_of_nodup st.registry hnd e he]
      rfl
    rw [hget]
    rfl
  refine ⟨?_, hmain⟩
  rw [hmain, List.map_map]
  exact List.map_congr_left fun e _ => rfl

/-- C9 witness: on the three-provider demo registry (probe true, probe
absent, probe rejecting) the mapping is `true`, `true`, `false`. -/
theorem C9_healthCheck_per_provider_isolation_witness :
    Orchestra.healthCheck healthDemoState
      = [(("a" : String), true), (("b" : String), true), (("c" : String), false)] := by
  have h := (C9_healthCheck_per_provider_isolation Unit healthDemoState (by decide)).2
  rw [h]
  rfl

lemma mem_list_register {ε : Type} (reg : Registry ε) (name : String)
    (config : ProviderConfig) :
    name ∈ ProviderRegistry.list (ProviderRegistry.register reg name config) := by
  unfold ProviderRegistry.register ProviderRegistry.mapSet ProviderRegistry.list
  by_cases h : reg.any fun e => e.1 == name
  · rw [if_pos h]
    obtain ⟨e, he, hbeq⟩ := List.any_eq_true.mp h
    rw [List.map_map]
    refine List.mem_map.mpr ⟨e, he, ?_⟩
    simp only [Function.comp]
    rw [if_pos hbeq]
  · rw [if_neg h]
    simp

lemma get_remove_self {ε : Type} (reg : Registry ε) (name : String) :
    ProviderRegistry.get (ProviderRegistry.remove reg name) name = none := by
  unfold ProviderRegistry.get ProviderRegistry.remove
  have hfind : (reg.filter fun e => !(e.1 == name)).find? (fun e => e.1 == name)
      = none := by
    rw [List.find?_eq_none]
    intro x hx
    have hx' := (List.mem_filter.mp hx).2
    simp only [Bool.not_eq_true'] at hx'
    simp [hx']
  rw [hfind]
  rfl

/-- C10: with no `options.providers`, `debate` resolves its participants
from the construction-time config keys while `consensus` resolves them
from the live registry: a provider added after construction is in the
default consensus provider set but not in the default debate set, and a
removed provider is still in the default debate set, making that
participant's per-round query fail with the provider-not-found error. -/
theorem C10_debate_config_vs_consensus_registry (ε : Type) (config : OrchestraConfig)
    (n m : String) (cfgP : ProviderConfig) (prompt : String)
    (hn : n ∉ config.providers.map fun e => e.1)
    (hm : m ∈ config.providers.map fun e => e.1)
    (hm' : m ≠ "") :
    n ∈ ConsensusEngine.resolveProviders
        (Orchestra.addProvider (Orchestra.init ε config) n cfgP).registry none ∧
    Orchestra.debateProviders (Orchestra.addProvider (Orchestra.init ε config) n cfgP) none
      = config.providers.map (fun e => e.1) ∧
    n ∉ Orchestra.debateProviders
        (Orchestra.addProvider (Orchestra.init ε config) n cfgP) none ∧
    m ∈ Orchestra.debateProviders (Orchestra.removeProvider (Orchestra.init ε config) m) none ∧
    Orchestra.query (Orchestra.removeProvider (Orchestra.init ε config) m) prompt (some m)
      = .error (.providerNotFound m) := by
  have hdeb : Orchestra.debateProviders
      (Orchestra.addProvider (Orchestra.init ε config) n cfgP) none
      = config.providers.map fun e => e.1 := rfl
  refine ⟨?_, hdeb, ?_, ?_, ?_⟩
  · show n ∈ ProviderRegistry.list
      (ProviderRegistry.register (Orchestra.init ε config).registry n cfgP)
    exact mem_list_register _ n cfgP
  · rw [hdeb]
    exact hn
  · exact hm
  · have hname : ∀ b, Orchestra.jsOrStr (some m) b = m := by
      intro b
      unfold Orchestra.jsOrStr
      dsimp only
      rw [if_neg hm']
    unfold Orchestra.query
    rw [hname]
    dsimp only [Orchestra.removeProvider]
    rw [get_remove_self]

/-- C10 witness: a one-provider config; `"extra"` is added after
construction and `"p1"` is removed. -/
theorem C10_debate_config_vs_consensus_registry_witness :
    n10w ∈ ConsensusEngine.resolveProviders
        (Orchestra.addProvider (Orchestra.init Unit cfg10w) n10w
          { apiKey := "k" }).registry none ∧
    n10w ∉ Orchestra.debateProviders
        (Orchestra.addProvider (Orchestra.init Unit cfg10w) n10w { apiKey := "k" }) none ∧
    Orchestra.query (Orchestra.removeProvider (Orchestra.init Unit cfg10w) ("p1"))
        ("q") (some ("p1")) = .error (.providerNotFound ("p1")) := by
  have h := C10_debate_config_vs_consensus_registry Unit cfg10w n10w ("p1")
    { apiKey := "k" } ("q") (by decide) (by decide) (by decide)
  exact ⟨h.1, h.2.2.1, h.2.2.2.2⟩
